import Mathlib

/-!
Verification development for the gunicorn rich-color logger
(`gunicorn_color.py`): a shallow embedding of the access-log rendering
pipeline (`Logger.access`, `Logger.colorize_atoms`, the
`CODE_COLOR_MAPPING` table, `LOG_FORMAT` interpolation and the rich
`Text.from_markup` span extraction the rendered message goes through),
plus the handler-installation routine `Logger._set_handler`.

Python dictionaries of string atoms are embedded as association lists
(first match wins, assignment replaces in place or appends, matching
CPython insertion-order semantics).  Python `float(...)` on the latency
atom is embedded as an exact decimal parser into a numerator/power-of-ten
pair `Dec` (its rational value is `Dec.toRat`); a value the parser
rejects corresponds to the `ValueError` that `float` raises.
Exceptions are explicit: fallible steps return `Except`/`Option`, and
`access` reports the propagated exception (if any) in its result.
-/

deriving instance DecidableEq for Except

namespace GunicornColor

/-- An atom mapping: a Python `dict` from atom names to string values,
as an insertion-ordered association list (first binding wins). -/
abbrev AtomMap := List (String × String)

/-- First binding for a key, like `dict.__getitem__` when the key exists. -/
def lookupAtom : AtomMap → String → Option String
  | [], _ => none
  | (k, v) :: rest, key => if k = key then some v else lookupAtom rest key

/-- The host's safe atom accessor (gunicorn's `SafeAtoms` wrapper, an
external collaborator of this adapter): reading a missing field yields
the placeholder `-` instead of raising.  Modelled from the spec's
contract for the wrapper: "substitutes `-` for any missing/undefined
field instead of signaling an error". -/
def safeGet (m : AtomMap) (key : String) : String :=
  (lookupAtom m key).getD "-"

/-- Python `dict` assignment `atoms[key] = v`: replace the first binding
of `key` in place, or append a new binding when the key is absent. -/
def setAtom : AtomMap → String → String → AtomMap
  | [], key, v => [(key, v)]
  | (k, w) :: rest, key, v =>
      if k = key then (key, v) :: rest else (k, w) :: setAtom rest key v

/-- An exact decimal value `num / 10 ^ exp`, the result of parsing a
float literal. -/
structure Dec where
  num : Int
  exp : Nat
  deriving DecidableEq

/-- Rational value of a parsed decimal. -/
def Dec.toRat (d : Dec) : Rat := (d.num : Rat) / (10 : Rat) ^ d.exp

/-- The comparison `float(atoms['L']) > 1` on a parsed decimal. -/
def Dec.gtOne (d : Dec) : Bool := decide ((10 : Int) ^ d.exp < d.num)

/-- Numeric value of a digit string, most significant digit first. -/
def digitsVal (cs : List Char) : Nat :=
  cs.foldl (fun a c => a * 10 + (c.toNat - Char.toNat '0')) 0

/-- Mantissa of a decimal literal: digits with at most one dot and at
least one digit (`"12"`, `"12.5"`, `".5"`, `"2."`). -/
def parseMantissa (cs : List Char) : Option Dec :=
  let intPart := cs.takeWhile Char.isDigit
  let rest := cs.dropWhile Char.isDigit
  match rest with
  | [] => if intPart.isEmpty then none else some ⟨digitsVal intPart, 0⟩
  | '.' :: frac =>
      if frac.all Char.isDigit && !(intPart.isEmpty && frac.isEmpty) then
        some ⟨digitsVal intPart * 10 ^ frac.length + digitsVal frac, frac.length⟩
      else none
  | _ => none

/-- Split a literal at the exponent marker `e`/`E`, if present. -/
def splitExpMarker (cs : List Char) : List Char × Option (List Char) :=
  match cs.span (fun c => !(c = 'e' || c = 'E')) with
  | (m, []) => (m, none)
  | (m, _ :: e) => (m, some e)

/-- Exponent part: optional sign then a nonempty digit string. -/
def parseExpPart (cs : List Char) : Option Int :=
  let (sgn, ds) : Int × List Char :=
    match cs with
    | '+' :: rest => (1, rest)
    | '-' :: rest => (-1, rest)
    | rest => (1, rest)
  if ds.all Char.isDigit && !ds.isEmpty then some (sgn * digitsVal ds) else none

/-- Multiply a decimal by `10 ^ e`. -/
def Dec.scale (d : Dec) : Int → Dec
  | .ofNat k => ⟨d.num * 10 ^ k, d.exp⟩
  | .negSucc k => ⟨d.num, d.exp + (k + 1)⟩

/-- Python `str.strip()` of surrounding whitespace. -/
def pyStrip (cs : List Char) : List Char :=
  ((cs.dropWhile Char.isWhitespace).reverse.dropWhile Char.isWhitespace).reverse

/-- Signed decimal literal with optional exponent, the fragment of
Python `float(s)` relevant to latency strings (gunicorn emits latency as
`"%d.%06d"`).  `none` corresponds to `float` raising `ValueError`. -/
def parseFloat (s : String) : Option Dec :=
  let cs := pyStrip s.toList
  let (negSign, body) : Bool × List Char :=
    match cs with
    | '+' :: rest => (false, rest)
    | '-' :: rest => (true, rest)
    | rest => (false, rest)
  let applySign (d : Dec) : Dec := if negSign then ⟨-d.num, d.exp⟩ else d
  let (mant, expPart) := splitExpMarker body
  match parseMantissa mant, expPart with
  | some m, none => some (applySign m)
  | some m, some e => (parseExpPart e).map (fun k => applySign (m.scale k))
  | none, _ => none

/-- The markup wrapper `f"[{color + attr_string}]{value}[/]"` built by
`wrap_with_color`, with `attr_string = " " + " ".join(attrs)` when
`attrs` is given. -/
def markupWrap (color : String) (attrs : List String) (value : String) : String :=
  let attrString := if attrs.isEmpty then "" else " " ++ String.intercalate " " attrs
  "[" ++ color ++ attrString ++ "]" ++ value ++ "[/]"

/-- The inner helper of `Logger.colorize_atoms`: rewrite `atoms[key]` as
`"[<color><attrs>]<value>[/]"`, where the value is read through the safe
accessor (so a missing field is wrapped as `-`). -/
def wrap_with_color (atoms : AtomMap) (key color : String)
    (attrs : List String) : AtomMap :=
  setAtom atoms key (markupWrap color attrs (safeGet atoms key))

/-- Embedding of `Logger.colorize_atoms`: wrap `U` and `q` in cyan, `m` in blue bold,
and `L` in red bold exactly when `float(atoms['L']) > 1`.  Returns
`none` when the latency value does not parse as a float (the
`ValueError` of `float` propagates). -/
def colorize_atoms (atoms : AtomMap) : Option AtomMap :=
  let a1 := wrap_with_color atoms "U" "cyan" []
  let a2 := wrap_with_color a1 "q" "cyan" []
  let a3 := wrap_with_color a2 "m" "blue" ["bold"]
  match parseFloat (safeGet a3 "L") with
  | none => none
  | some v => some (if v.gtOne then wrap_with_color a3 "L" "red bold" [] else a3)

/-- A styled text object (rich `Text`): the plain text plus styled spans
`(start, stop, style)` in character offsets. -/
structure RText where
  plain : String
  spans : List (Nat × Nat × String)
  deriving DecidableEq

/-- Worker for `fromMarkup`: walks the markup one character at a time.
`tagAcc = some cs` while inside a `[...]` tag (characters reversed),
`plainAcc` is the plain text so far (reversed), `stack` the open tags
with their start offsets, `spans` the closed spans in emission order.
Tags still open at the end of input are closed there, and a closing tag
`[/...]` pops the most recently opened tag, as rich does on the markup
this logger emits. -/
def fromMarkupGo : List Char → Option (List Char) → List Char →
    List (String × Nat) → List (Nat × Nat × String) → RText
  | [], _, plainAcc, stack, spans =>
      ⟨String.mk plainAcc.reverse,
        spans ++ stack.map (fun p => (p.2, plainAcc.length, p.1))⟩
  | c :: cs, none, plainAcc, stack, spans =>
      if c = '[' then fromMarkupGo cs (some []) plainAcc stack spans
      else fromMarkupGo cs none (c :: plainAcc) stack spans
  | c :: cs, some tagAcc, plainAcc, stack, spans =>
      if c = ']' then
        match tagAcc.reverse with
        | '/' :: _ =>
            match stack with
            | [] => fromMarkupGo cs none plainAcc [] spans
            | (style, start) :: stackRest =>
                fromMarkupGo cs none plainAcc stackRest
                  (spans ++ [(start, plainAcc.length, style)])
        | tag => fromMarkupGo cs none plainAcc
            ((String.mk tag, plainAcc.length) :: stack) spans
      else fromMarkupGo cs (some (c :: tagAcc)) plainAcc stack spans

/-- rich `Text.from_markup` on the markup strings this logger builds:
`[style]` opens a span, `[/]` closes the most recent one. -/
def fromMarkup (s : String) : RText :=
  fromMarkupGo s.toList none [] [] []

/-- Interpolation of `LOG_FORMAT` (the fixed template over method,
path, query, latency and request line) with an atom mapping, reading
every field through the safe accessor (`%` on a `SafeAtoms` mapping
reads missing fields as `-`). -/
def logFormatInterp (atoms : AtomMap) : String :=
  safeGet atoms "m" ++ " " ++ safeGet atoms "U" ++ "?" ++ safeGet atoms "q" ++
    " (" ++ safeGet atoms "L" ++ " s) \"" ++ safeGet atoms "f" ++ "\""

/-- The shared status-class color table, keyed by the first character of
the status code.  A class attribute of `Logger`: one shared dict. -/
abbrev CMap := List (Char × String)

/-- Embedding of `Logger.CODE_COLOR_MAPPING` as written in the source. -/
def CODE_COLOR_MAPPING : CMap :=
  [('1', "yellow"), ('2', "green"), ('3', "cyan"), ('4', "magenta"), ('5', "red")]

/-- Dict lookup on the color table (first binding wins). -/
def lookupColor : CMap → Char → Option String
  | [], _ => none
  | (k, v) :: rest, key => if k = key then some v else lookupColor rest key

/-- Python `dict.setdefault(k, d)`: return the bound value if `k` is
present; otherwise insert `k ↦ d` (at the end, per insertion order) and
return `d`.  Note this MUTATES the dict on a miss. -/
def dictSetdefault (m : CMap) (k : Char) (dflt : String) : String × CMap :=
  match lookupColor m k with
  | some v => (v, m)
  | none => (dflt, m ++ [(k, dflt)])

/-- A Python exception propagating out of the rendering path. -/
inductive PyError where
  /-- `float()` conversion failure (`ValueError`). -/
  | valueError
  /-- raw-dict lookup failure (`KeyError`), e.g. `atoms['s']`. -/
  | keyError (key : String)
  /-- `atoms['s'][0]` on an empty status string (`IndexError`). -/
  | indexError
  deriving DecidableEq

/-- The rendered access-log row: the markup-parsed message and the
status badge placed in the level slot (`Text(atoms['s'],
style=f"bold {status_color}")`).  The time column that `log_render`
adds from `datetime.datetime.now()` is an external input and carries no
claim, so it is not part of the model. -/
structure RenderedLine where
  message : RText
  levelText : String
  levelStyle : String
  deriving DecidableEq

/-- Lines 70-92 of `Logger.access`, after the raw atoms have been
computed by the host's `self.atoms(...)`: safe-wrap and colorize the
atoms, interpolate `LOG_FORMAT`, parse the markup, and build the status
badge from the shared color table (`setdefault` may mutate it).
Returns the rendered line and the updated shared table, or the
propagating exception. -/
def renderAccess (ccm : CMap) (atoms : AtomMap) :
    Except PyError (RenderedLine × CMap) :=
  match colorize_atoms atoms with
  | none => .error .valueError
  | some colored =>
    let message := fromMarkup (logFormatInterp colored)
    match lookupAtom atoms "s" with
    | none => .error (.keyError "s")
    | some sVal =>
      match sVal.toList with
      | [] => .error .indexError
      | c :: _ =>
        .ok (⟨message, sVal, "bold " ++ (dictSetdefault ccm c "").1⟩,
          (dictSetdefault ccm c "").2)

/-- An observable side effect of one `access` call. -/
inductive Effect where
  /-- `self.atoms(resp, req, environ, request_time)` was invoked. -/
  | atomsComputed
  /-- `self.console.print(rendered)` succeeded. -/
  | consolePrint (line : RenderedLine)
  /-- `self.error(traceback.format_exc())`: the print raised and the
  formatted traceback was forwarded to the error channel. -/
  | errorReport (text : String)
  deriving DecidableEq

/-- The three host settings gating access logging (`self.cfg`). -/
structure Config where
  accesslog : Bool
  logconfig : Bool
  syslog : Bool
  deriving DecidableEq

/-- Embedding of `self.cfg.accesslog or self.cfg.logconfig or self.cfg.syslog`. -/
def Config.loggingEnabled (cfg : Config) : Bool :=
  cfg.accesslog || cfg.logconfig || cfg.syslog

/-- Result of one `Logger.access` call: the effects it performed in
order, the exception it let propagate (if any), and the shared color
table afterwards. -/
structure AccessOut where
  trace : List Effect
  raised : Option PyError
  ccm : CMap
  deriving DecidableEq

/-- Embedding of `Logger.access`.  `atoms` is the mapping the host's `self.atoms`
call returns; `printExc` models the outcome of `self.console.print`
(`none` = it printed, `some tb` = it raised and
`traceback.format_exc()` renders the exception as `tb`). -/
def access (cfg : Config) (ccm : CMap) (atoms : AtomMap)
    (printExc : Option String) : AccessOut :=
  if cfg.loggingEnabled then
    match renderAccess ccm atoms with
    | .error e => ⟨[.atomsComputed], some e, ccm⟩
    | .ok (line, ccm2) =>
      match printExc with
      | none => ⟨[.atomsComputed, .consolePrint line], none, ccm2⟩
      | some tb => ⟨[.atomsComputed, .errorReport tb], none, ccm2⟩
  else ⟨[], none, ccm⟩

/-- One of the host's logging channels, as compared against
`self.error_log` / `self.access_log` in `_set_handler`. -/
inductive Channel where
  | accessLog
  | errorLog
  | other
  deriving DecidableEq

/-- A handler attached to a logging channel.  `hid` is the object's
identity; `gunicorn` is the `_gunicorn` marker attribute; `showPath`
the `show_path` flag of a `RichHandler`; `messageOnly` whether its
formatter is the plain `'%(message)s'` one. -/
structure Handler where
  hid : Nat
  gunicorn : Bool
  showPath : Bool
  messageOnly : Bool
  deriving DecidableEq

/-- gunicorn's `Logger._get_gunicorn_handler(log)` (host collaborator):
the first handler on the channel carrying the `_gunicorn` marker.
Modelled from the spec: "Look up whether a previously-installed adapter
sink (tagged with a marker flag) already exists on this channel". -/
def findGunicornHandler : List Handler → Option Handler
  | [] => none
  | h :: t => if h.gunicorn then some h else findGunicornHandler t

/-- Embedding of `log.handlers.remove(h)` where `h` is the first marker-tagged
handler: removes exactly that occurrence. -/
def dropFirstGunicorn : List Handler → List Handler
  | [] => []
  | h :: t => if h.gunicorn then t else h :: dropFirstGunicorn t

/-- Result of `Logger._set_handler`: the new handler list, or
delegation to `super()._set_handler` (the host default) for channels
other than the access and error logs. -/
inductive SetHandlerOut where
  | handled (handlers : List Handler)
  | delegated
  deriving DecidableEq

/-- Embedding of `Logger._set_handler` on one channel: for the access
or error log,
detach the previously installed marker-tagged handler (if any), then
attach a fresh `RichHandler` (identity `newId`) tagged with the marker,
with a message-only formatter, showing source paths only on the error
channel.  Other channels delegate to the host default. -/
def set_handler (ch : Channel) (handlers : List Handler) (newId : Nat) :
    SetHandlerOut :=
  if ch = .errorLog || ch = .accessLog then
    let hs :=
      match findGunicornHandler handlers with
      | some _ => dropFirstGunicorn handlers
      | none => handlers
    .handled (hs ++ [⟨newId, true, ch = .errorLog, true⟩])
  else .delegated

/-- Iteration of `_set_handler` over a list of fresh handler identities
(one reconfiguration call per identity). -/
def setHandlerIter (ch : Channel) : List Handler → List Nat → Option (List Handler)
  | hs, [] => some hs
  | hs, i :: is =>
      match set_handler ch hs i with
      | .handled hs2 => setHandlerIter ch hs2 is
      | .delegated => none

/-- Number of marker-tagged (adapter-installed) handlers on a channel. -/
def countGunicorn (hs : List Handler) : Nat :=
  (hs.filter (·.gunicorn)).length

/-- The non-adapter handlers on a channel, in order. -/
def nonGunicorn (hs : List Handler) : List Handler :=
  hs.filter (fun h => !h.gunicorn)

/-- A heap of atom-dict objects: a Python reference is an index into
the store. -/
abbrev Store := List AtomMap

/-- Action of `wrap_with_color` through a reference: the assignment
`atoms[key] = ...` mutates the dict object the reference points to. -/
def wrapRefWithColor (store : Store) (r : Nat) (key color : String)
    (attrs : List String) : Store :=
  store.set r (wrap_with_color (store.getD r []) key color attrs)

/-- Embedding of `Logger.colorize_atoms` at the Python object level:
the argument is
a reference to a dict in the store, each update assigns through that
reference, and `return atoms` returns the reference itself.  `none`
models the `ValueError` out of `float`. -/
def colorize_atoms_ref (store : Store) (r : Nat) : Option (Store × Nat) :=
  let s1 := wrapRefWithColor store r "U" "cyan" []
  let s2 := wrapRefWithColor s1 r "q" "cyan" []
  let s3 := wrapRefWithColor s2 r "m" "blue" ["bold"]
  match parseFloat (safeGet (s3.getD r []) "L") with
  | none => none
  | some v =>
      some (if v.gtOne then (wrapRefWithColor s3 r "L" "red bold" [], r) else (s3, r))

/-- The mapping `colorize_atoms` produces when the latency atom parses
to the decimal `v`. -/
def colorizeResult (atoms : AtomMap) (v : Dec) : AtomMap :=
  let a3 := wrap_with_color (wrap_with_color (wrap_with_color atoms "U" "cyan" [])
    "q" "cyan" []) "m" "blue" ["bold"]
  if v.gtOne then wrap_with_color a3 "L" "red bold" [] else a3

end GunicornColor

namespace GunicornColor

/-! ### General lemmas about the embedding -/

theorem Dec.gtOne_iff (d : Dec) : d.gtOne = true ↔ 1 < d.toRat := by
  have hpow : (0 : Rat) < (10 : Rat) ^ d.exp := by positivity
  rw [Dec.gtOne, Dec.toRat, decide_eq_true_iff, one_lt_div hpow]
  exact_mod_cast Iff.rfl

theorem lookupAtom_setAtom_self (m : AtomMap) (key v : String) :
    lookupAtom (setAtom m key v) key = some v := by
  induction m with
  | nil => simp [setAtom, lookupAtom]
  | cons kv rest ih =>
      obtain ⟨k, w⟩ := kv
      by_cases h : k = key
      · simp [setAtom, h, lookupAtom]
      · simp [setAtom, h, lookupAtom, ih]

theorem lookupAtom_setAtom_ne (m : AtomMap) {key key2 : String}
    (h : key2 ≠ key) (v : String) :
    lookupAtom (setAtom m key v) key2 = lookupAtom m key2 := by
  induction m with
  | nil => simp [setAtom, lookupAtom, Ne.symm h]
  | cons kv rest ih =>
      obtain ⟨k, w⟩ := kv
      by_cases hk : k = key
      · subst hk
        simp [setAtom, lookupAtom, Ne.symm h]
      · simp only [setAtom, hk, if_false, lookupAtom, ih]

theorem safeGet_setAtom_ne (m : AtomMap) {key key2 : String}
    (h : key2 ≠ key) (v : String) :
    safeGet (setAtom m key v) key2 = safeGet m key2 := by
  simp [safeGet, lookupAtom_setAtom_ne m h v]

theorem lookupAtom_wrap_self (m : AtomMap) (key color : String) (attrs : List String) :
    lookupAtom (wrap_with_color m key color attrs) key =
      some (markupWrap color attrs (safeGet m key)) := by
  simp [wrap_with_color, lookupAtom_setAtom_self]

theorem lookupAtom_wrap_ne (m : AtomMap) {key key2 : String}
    (h : key2 ≠ key) (color : String) (attrs : List String) :
    lookupAtom (wrap_with_color m key color attrs) key2 = lookupAtom m key2 := by
  simp [wrap_with_color, lookupAtom_setAtom_ne m h]

theorem safeGet_wrap_ne (m : AtomMap) {key key2 : String}
    (h : key2 ≠ key) (color : String) (attrs : List String) :
    safeGet (wrap_with_color m key color attrs) key2 = safeGet m key2 := by
  simp [safeGet, lookupAtom_wrap_ne m h]

theorem colorize_atoms_eq (atoms : AtomMap) (v : Dec)
    (h : parseFloat (safeGet atoms "L") = some v) :
    colorize_atoms atoms = some (colorizeResult atoms v) := by
  unfold colorize_atoms colorizeResult
  dsimp only
  rw [safeGet_wrap_ne _ (by decide : ("L" : String) ≠ "m"),
    safeGet_wrap_ne _ (by decide : ("L" : String) ≠ "q"),
    safeGet_wrap_ne _ (by decide : ("L" : String) ≠ "U"), h]

theorem dictSetdefault_fst (m : CMap) (k : Char) (dflt : String) :
    (dictSetdefault m k dflt).1 = (lookupColor m k).getD dflt := by
  unfold dictSetdefault
  cases lookupColor m k <;> rfl

theorem dictSetdefault_snd_hit (m : CMap) (k : Char) (dflt w : String)
    (h : lookupColor m k = some w) :
    (dictSetdefault m k dflt).2 = m := by
  unfold dictSetdefault
  rw [h]

theorem dictSetdefault_snd_miss (m : CMap) (k : Char) (dflt : String)
    (h : lookupColor m k = none) :
    (dictSetdefault m k dflt).2 = m ++ [(k, dflt)] := by
  unfold dictSetdefault
  rw [h]

theorem renderAccess_eq (ccm : CMap) (atoms : AtomMap) (v : Dec) (sv : String)
    (c : Char) (rest : List Char)
    (hL : parseFloat (safeGet atoms "L") = some v)
    (hs : lookupAtom atoms "s" = some sv) (hc : sv.toList = c :: rest) :
    renderAccess ccm atoms =
      .ok (⟨fromMarkup (logFormatInterp (colorizeResult atoms v)), sv,
          "bold " ++ (lookupColor ccm c).getD ""⟩,
        (dictSetdefault ccm c "").2) := by
  unfold renderAccess
  rw [colorize_atoms_eq atoms v hL, hs]
  dsimp only
  rw [hc, ← dictSetdefault_fst]

theorem access_disabled (ccm : CMap) (atoms : AtomMap) (printExc : Option String)
    (cfg : Config) (h : cfg.loggingEnabled = false) :
    access cfg ccm atoms printExc = ⟨[], none, ccm⟩ := by
  unfold access
  rw [h]
  rfl

theorem colorize_atoms_none (atoms : AtomMap)
    (hp : parseFloat (safeGet atoms "L") = none) : colorize_atoms atoms = none := by
  unfold colorize_atoms
  dsimp only
  rw [safeGet_wrap_ne _ (by decide : ("L" : String) ≠ "m"),
    safeGet_wrap_ne _ (by decide : ("L" : String) ≠ "q"),
    safeGet_wrap_ne _ (by decide : ("L" : String) ≠ "U"), hp]

theorem toList_ne_nil (sv : String) (h : sv ≠ "") :
    ∃ c rest, sv.toList = c :: rest := by
  cases htl : sv.toList with
  | nil =>
      refine absurd (String.toList_inj.mp ?_) h
      rw [htl, String.toList_empty]
  | cons c rest => exact ⟨c, rest, rfl⟩

theorem access_ok_none (cfg : Config) (ccm : CMap) (atoms : AtomMap)
    (v : Dec) (sv : String) (c : Char) (rest : List Char)
    (hE : cfg.loggingEnabled = true)
    (hL : parseFloat (safeGet atoms "L") = some v)
    (hs : lookupAtom atoms "s" = some sv) (hc : sv.toList = c :: rest) :
    access cfg ccm atoms none =
      ⟨[.atomsComputed, .consolePrint
          ⟨fromMarkup (logFormatInterp (colorizeResult atoms v)), sv,
            "bold " ++ (lookupColor ccm c).getD ""⟩],
        none, (dictSetdefault ccm c "").2⟩ := by
  unfold access
  rw [hE, renderAccess_eq ccm atoms v sv c rest hL hs hc]
  rfl

theorem access_ok_raise (cfg : Config) (ccm : CMap) (atoms : AtomMap) (tb : String)
    (v : Dec) (sv : String) (c : Char) (rest : List Char)
    (hE : cfg.loggingEnabled = true)
    (hL : parseFloat (safeGet atoms "L") = some v)
    (hs : lookupAtom atoms "s" = some sv) (hc : sv.toList = c :: rest) :
    access cfg ccm atoms (some tb) =
      ⟨[.atomsComputed, .errorReport tb], none, (dictSetdefault ccm c "").2⟩ := by
  unfold access
  rw [hE, renderAccess_eq ccm atoms v sv c rest hL hs hc]
  rfl

theorem access_parse_failure (cfg : Config) (ccm : CMap) (atoms : AtomMap)
    (printExc : Option String) (hE : cfg.loggingEnabled = true)
    (hp : parseFloat (safeGet atoms "L") = none) :
    access cfg ccm atoms printExc = ⟨[.atomsComputed], some .valueError, ccm⟩ := by
  unfold access
  rw [hE]
  unfold renderAccess
  rw [colorize_atoms_none atoms hp]
  rfl

/-! ### Lookup lemmas on the colorized mapping -/

theorem colorizeResult_lookup_m (atoms : AtomMap) (v : Dec) :
    lookupAtom (colorizeResult atoms v) "m" =
      some (markupWrap "blue" ["bold"] (safeGet atoms "m")) := by
  unfold colorizeResult
  dsimp only
  have hm : lookupAtom (wrap_with_color (wrap_with_color
      (wrap_with_color atoms "U" "cyan" []) "q" "cyan" []) "m" "blue" ["bold"]) "m" =
      some (markupWrap "blue" ["bold"] (safeGet atoms "m")) := by
    rw [lookupAtom_wrap_self, safeGet_wrap_ne _ (by decide : ("m" : String) ≠ "q"),
      safeGet_wrap_ne _ (by decide : ("m" : String) ≠ "U")]
  cases hg : v.gtOne
  · simpa using hm
  · simp only [if_true]
    rw [lookupAtom_wrap_ne _ (by decide : ("m" : String) ≠ "L")]
    exact hm

theorem colorizeResult_lookup_U (atoms : AtomMap) (v : Dec) :
    lookupAtom (colorizeResult atoms v) "U" =
      some (markupWrap "cyan" [] (safeGet atoms "U")) := by
  unfold colorizeResult
  dsimp only
  have hm : lookupAtom (wrap_with_color (wrap_with_color
      (wrap_with_color atoms "U" "cyan" []) "q" "cyan" []) "m" "blue" ["bold"]) "U" =
      some (markupWrap "cyan" [] (safeGet atoms "U")) := by
    rw [lookupAtom_wrap_ne _ (by decide : ("U" : String) ≠ "m"),
      lookupAtom_wrap_ne _ (by decide : ("U" : String) ≠ "q"),
      lookupAtom_wrap_self]
  cases hg : v.gtOne
  · simpa using hm
  · simp only [if_true]
    rw [lookupAtom_wrap_ne _ (by decide : ("U" : String) ≠ "L")]
    exact hm

theorem colorizeResult_lookup_q (atoms : AtomMap) (v : Dec) :
    lookupAtom (colorizeResult atoms v) "q" =
      some (markupWrap "cyan" [] (safeGet atoms "q")) := by
  unfold colorizeResult
  dsimp only
  have hm : lookupAtom (wrap_with_color (wrap_with_color
      (wrap_with_color atoms "U" "cyan" []) "q" "cyan" []) "m" "blue" ["bold"]) "q" =
      some (markupWrap "cyan" [] (safeGet atoms "q")) := by
    rw [lookupAtom_wrap_ne _ (by decide : ("q" : String) ≠ "m"),
      lookupAtom_wrap_self, safeGet_wrap_ne _ (by decide : ("q" : String) ≠ "U")]
  cases hg : v.gtOne
  · simpa using hm
  · simp only [if_true]
    rw [lookupAtom_wrap_ne _ (by decide : ("q" : String) ≠ "L")]
    exact hm

theorem colorizeResult_lookup_L_wrapped (atoms : AtomMap) (v : Dec)
    (hg : v.gtOne = true) :
    lookupAtom (colorizeResult atoms v) "L" =
      some (markupWrap "red bold" [] (safeGet atoms "L")) := by
  unfold colorizeResult
  dsimp only
  rw [hg]
  simp only [if_true]
  rw [lookupAtom_wrap_self, safeGet_wrap_ne _ (by decide : ("L" : String) ≠ "m"),
    safeGet_wrap_ne _ (by decide : ("L" : String) ≠ "q"),
    safeGet_wrap_ne _ (by decide : ("L" : String) ≠ "U")]

theorem colorizeResult_lookup_L_plain (atoms : AtomMap) (v : Dec)
    (hg : v.gtOne = false) :
    lookupAtom (colorizeResult atoms v) "L" = lookupAtom atoms "L" := by
  unfold colorizeResult
  dsimp only
  rw [hg]
  simp only [Bool.false_eq_true, if_false]
  rw [lookupAtom_wrap_ne _ (by decide : ("L" : String) ≠ "m"),
    lookupAtom_wrap_ne _ (by decide : ("L" : String) ≠ "q"),
    lookupAtom_wrap_ne _ (by decide : ("L" : String) ≠ "U")]

theorem colorizeResult_lookup_other (atoms : AtomMap) (v : Dec) (key : String)
    (h1 : key ≠ "U") (h2 : key ≠ "q") (h3 : key ≠ "m") (h4 : key ≠ "L") :
    lookupAtom (colorizeResult atoms v) key = lookupAtom atoms key := by
  unfold colorizeResult
  dsimp only
  cases hg : v.gtOne
  · simp only [Bool.false_eq_true, if_false]
    rw [lookupAtom_wrap_ne _ h3, lookupAtom_wrap_ne _ h2, lookupAtom_wrap_ne _ h1]
  · simp only [if_true]
    rw [lookupAtom_wrap_ne _ h4, lookupAtom_wrap_ne _ h3, lookupAtom_wrap_ne _ h2,
      lookupAtom_wrap_ne _ h1]

/-! ### Lemmas about the handler lists -/

theorem countGunicorn_append (a b : List Handler) :
    countGunicorn (a ++ b) = countGunicorn a + countGunicorn b := by
  simp [countGunicorn, List.filter_append]

theorem nonGunicorn_append (a b : List Handler) :
    nonGunicorn (a ++ b) = nonGunicorn a ++ nonGunicorn b := by
  simp [nonGunicorn, List.filter_append]

theorem nonGunicorn_dropFirst (hs : List Handler) :
    nonGunicorn (dropFirstGunicorn hs) = nonGunicorn hs := by
  induction hs with
  | nil => rfl
  | cons h t ih =>
      cases hg : h.gunicorn
      · simpa [dropFirstGunicorn, hg, nonGunicorn, List.filter_cons] using ih
      · simp [dropFirstGunicorn, hg, nonGunicorn, List.filter_cons]

theorem countGunicorn_dropFirst (hs : List Handler) :
    countGunicorn (dropFirstGunicorn hs) = countGunicorn hs - 1 := by
  induction hs with
  | nil => rfl
  | cons h t ih =>
      cases hg : h.gunicorn
      · simpa [dropFirstGunicorn, hg, countGunicorn, List.filter_cons] using ih
      · simp [dropFirstGunicorn, hg, countGunicorn, List.filter_cons]

theorem findGunicorn_none_iff (hs : List Handler) :
    findGunicornHandler hs = none ↔ countGunicorn hs = 0 := by
  induction hs with
  | nil => simp [findGunicornHandler, countGunicorn]
  | cons h t ih =>
      cases hg : h.gunicorn
      · simpa [findGunicornHandler, hg, countGunicorn, List.filter_cons] using ih
      · simp [findGunicornHandler, hg, countGunicorn, List.filter_cons]

theorem set_handler_step (ch : Channel) (hs : List Handler) (i : Nat)
    (hch : ch = Channel.accessLog ∨ ch = Channel.errorLog)
    (hc : countGunicorn hs ≤ 1) :
    ∃ hs2, set_handler ch hs i = .handled hs2 ∧
      countGunicorn hs2 = 1 ∧ nonGunicorn hs2 = nonGunicorn hs := by
  have hnew1 : countGunicorn [⟨i, true, ch = Channel.errorLog, true⟩] = 1 := by
    simp [countGunicorn]
  have hnew2 : nonGunicorn [⟨i, true, ch = Channel.errorLog, true⟩] = [] := by
    simp [nonGunicorn]
  have hbody : set_handler ch hs i = .handled
      ((match findGunicornHandler hs with
        | some _ => dropFirstGunicorn hs
        | none => hs) ++ [⟨i, true, ch = Channel.errorLog, true⟩]) := by
    unfold set_handler
    rcases hch with h | h <;> rw [h] <;> rfl
  cases hf : findGunicornHandler hs with
  | none =>
      have h0 : countGunicorn hs = 0 := (findGunicorn_none_iff hs).mp hf
      refine ⟨_, by rw [hbody, hf], ?_, ?_⟩
      · rw [countGunicorn_append, h0, hnew1]
      · rw [nonGunicorn_append, hnew2, List.append_nil]
  | some h =>
      have h1 : countGunicorn hs = 1 := by
        rcases Nat.lt_or_ge 0 (countGunicorn hs) with hpos | hz
        · omega
        · exfalso
          have : findGunicornHandler hs = none := (findGunicorn_none_iff hs).mpr (by omega)
          rw [hf] at this
          exact Option.noConfusion this
      refine ⟨_, by rw [hbody, hf], ?_, ?_⟩
      · rw [countGunicorn_append, countGunicorn_dropFirst, h1, hnew1]
      · rw [nonGunicorn_append, hnew2, List.append_nil, nonGunicorn_dropFirst]

/-! ### Lemmas about the reference-level colorization -/

theorem wrapRef_eq (store : Store) (r : Nat) (m : AtomMap)
    (h : store[r]? = some m) (key color : String) (attrs : List String) :
    wrapRefWithColor store r key color attrs =
      store.set r (wrap_with_color m key color attrs) := by
  unfold wrapRefWithColor
  rw [List.getD_eq_getElem?_getD, h]
  rfl

theorem wrapRef_set (store : Store) (r : Nat) (m : AtomMap)
    (hlen : r < store.length) (key color : String) (attrs : List String) :
    wrapRefWithColor (store.set r m) r key color attrs =
      store.set r (wrap_with_color m key color attrs) := by
  rw [wrapRef_eq (store.set r m) r m (List.getElem?_set_self (by simpa using hlen)),
    List.set_set]

theorem colorize_atoms_ref_eq (store : Store) (r : Nat) (atoms : AtomMap) (v : Dec)
    (hr : store[r]? = some atoms)
    (hL : parseFloat (safeGet atoms "L") = some v) :
    colorize_atoms_ref store r = some (store.set r (colorizeResult atoms v), r) := by
  have hlen : r < store.length := (List.getElem?_eq_some_iff.mp hr).1
  unfold colorize_atoms_ref
  dsimp only
  rw [wrapRef_eq store r atoms hr, wrapRef_set store r _ hlen, wrapRef_set store r _ hlen,
    List.getD_eq_getElem?_getD, List.getElem?_set_self (by simpa using hlen),
    Option.getD_some,
    safeGet_wrap_ne _ (by decide : ("L" : String) ≠ "m"),
    safeGet_wrap_ne _ (by decide : ("L" : String) ≠ "q"),
    safeGet_wrap_ne _ (by decide : ("L" : String) ≠ "U"), hL]
  unfold colorizeResult
  dsimp only
  cases hg : v.gtOne
  · simp
  · simp [wrapRef_set store r _ hlen]

theorem lookupColor_CCM_none (c : Char) (h : c ∉ (['1', '2', '3', '4', '5'] : List Char)) :
    lookupColor CODE_COLOR_MAPPING c = none := by
  have h1 : ¬('1' = c) := fun hh => h (by rw [← hh]; decide)
  have h2 : ¬('2' = c) := fun hh => h (by rw [← hh]; decide)
  have h3 : ¬('3' = c) := fun hh => h (by rw [← hh]; decide)
  have h4 : ¬('4' = c) := fun hh => h (by rw [← hh]; decide)
  have h5 : ¬('5' = c) := fun hh => h (by rw [← hh]; decide)
  simp [CODE_COLOR_MAPPING, lookupColor, h1, h2, h3, h4, h5]

theorem setHandlerIter_inv (ch : Channel)
    (hch : ch = Channel.accessLog ∨ ch = Channel.errorLog) :
    ∀ (ids : List Nat) (hs : List Handler), countGunicorn hs ≤ 1 → ids ≠ [] →
      ∃ hs2, setHandlerIter ch hs ids = some hs2 ∧
        countGunicorn hs2 = 1 ∧ nonGunicorn hs2 = nonGunicorn hs := by
  intro ids
  induction ids with
  | nil =>
      intro hs _ hne
      exact absurd rfl hne
  | cons i is ih =>
      intro hs hc _
      obtain ⟨hs1, hstep, hcount1, hnon1⟩ := set_handler_step ch hs i hch hc
      cases is with
      | nil =>
          refine ⟨hs1, ?_, hcount1, hnon1⟩
          unfold setHandlerIter
          rw [hstep]
          rfl
      | cons j js =>
          obtain ⟨hs2, hiter, hcount2, hnon2⟩ := ih hs1 (by omega) (by simp)
          refine ⟨hs2, ?_, hcount2, hnon2.trans hnon1⟩
          unfold setHandlerIter
          rw [hstep]
          exact hiter

end GunicornColor

namespace GunicornColor

/-! ### The claims -/

/-- Claim C1, counterexample to the claim as stated: with logging
enabled, an atom mapping missing the referenced latency field `L`
(here only the status is present) makes the access call raise the
`float` conversion failure instead of rendering `-` silently: the safe
accessor substitutes `-` for the missing `L` and `float("-")` raises
`ValueError`. -/
theorem C1_missing_latency_counterexample :
    (access ⟨true, false, false⟩ CODE_COLOR_MAPPING [("s", "200")] none).raised =
      some PyError.valueError := by decide

/-- Claim C1 (amended): every field the renderer reads through the safe
accessor substitutes the placeholder `-` when missing, and the access
call raises no exception, provided the latency atom read parses as a
float and the status atom is present and nonempty; a missing latency
field itself raises the conversion failure (see the counterexample),
since the placeholder `-` does not parse as a float. -/
theorem C1_missing_field_placeholder (cfg : Config) (ccm : CMap) (atoms : AtomMap)
    (printExc : Option String) (v : Dec) (sv : String)
    (hE : cfg.loggingEnabled = true)
    (hL : parseFloat (safeGet atoms "L") = some v)
    (hs : lookupAtom atoms "s" = some sv) (hne : sv ≠ "") :
    (access cfg ccm atoms printExc).raised = none ∧
      ∀ key, lookupAtom atoms key = none → safeGet atoms key = "-" := by
  obtain ⟨c, rest, hc⟩ := toList_ne_nil sv hne
  constructor
  · cases printExc with
    | none => rw [access_ok_none cfg ccm atoms v sv c rest hE hL hs hc]
    | some tb => rw [access_ok_raise cfg ccm atoms tb v sv c rest hE hL hs hc]
  · intro key hk
    simp [safeGet, hk]

/-- Witness for C1 (amended) at a concrete input: atoms with only `s`
and `L` present. -/
theorem C1_missing_field_placeholder_witness :
    (access ⟨true, false, false⟩ CODE_COLOR_MAPPING
        [("s", "200"), ("L", "0.5")] none).raised = none ∧
      ∀ key, lookupAtom [("s", "200"), ("L", "0.5")] key = none →
        safeGet [("s", "200"), ("L", "0.5")] key = "-" :=
  C1_missing_field_placeholder ⟨true, false, false⟩ CODE_COLOR_MAPPING
    [("s", "200"), ("L", "0.5")] none ⟨5, 1⟩ "200"
    (by decide) (by decide) (by decide) (by decide)

/-- Claim C2, counterexample to the claim as stated: rendering a status
code whose first character is not a key of the shared status-class
color map DOES write shared state — `setdefault` inserts the entry
`('9', "")` into the class-level dict, so the map differs after the
call. -/
theorem C2_color_map_write_counterexample :
    (access ⟨true, false, false⟩ CODE_COLOR_MAPPING
        [("s", "999"), ("L", "0.1")] none).ccm ≠ CODE_COLOR_MAPPING := by decide

/-- Claim C2 (amended): the shared status-class color map is unchanged
by an access call exactly when the first character of the status is
already one of its keys; when it is not, the lookup still resolves to
the empty color but `setdefault` appends the entry `(char, "")` to the
shared map. -/
theorem C2_color_map_mutation (cfg : Config) (ccm : CMap) (atoms : AtomMap)
    (printExc : Option String) (v : Dec) (sv : String) (c : Char) (rest : List Char)
    (hE : cfg.loggingEnabled = true)
    (hL : parseFloat (safeGet atoms "L") = some v)
    (hs : lookupAtom atoms "s" = some sv) (hc : sv.toList = c :: rest) :
    ((lookupColor ccm c).isSome = true → (access cfg ccm atoms printExc).ccm = ccm) ∧
      (lookupColor ccm c = none →
        (access cfg ccm atoms printExc).ccm = ccm ++ [(c, "")]) := by
  have hcc : (access cfg ccm atoms printExc).ccm = (dictSetdefault ccm c "").2 := by
    cases printExc with
    | none => rw [access_ok_none cfg ccm atoms v sv c rest hE hL hs hc]
    | some tb => rw [access_ok_raise cfg ccm atoms tb v sv c rest hE hL hs hc]
  constructor
  · intro hsome
    obtain ⟨w, hw⟩ := Option.isSome_iff_exists.mp hsome
    rw [hcc, dictSetdefault_snd_hit ccm c "" w hw]
  · intro hnone
    rw [hcc, dictSetdefault_snd_miss ccm c "" hnone]

/-- Witness for C2 (amended) at a concrete input: status `999`, whose
first character is not in the map. -/
theorem C2_color_map_mutation_witness :
    ((lookupColor CODE_COLOR_MAPPING '9').isSome = true →
      (access ⟨true, false, false⟩ CODE_COLOR_MAPPING
        [("s", "999"), ("L", "0.1")] none).ccm = CODE_COLOR_MAPPING) ∧
      (lookupColor CODE_COLOR_MAPPING '9' = none →
        (access ⟨true, false, false⟩ CODE_COLOR_MAPPING
          [("s", "999"), ("L", "0.1")] none).ccm = CODE_COLOR_MAPPING ++ [('9', "")]) :=
  C2_color_map_mutation ⟨true, false, false⟩ CODE_COLOR_MAPPING
    [("s", "999"), ("L", "0.1")] none ⟨1, 1⟩ "999" '9' ['9', '9']
    (by decide) (by decide) (by decide) (by decide)

/-- Claim C3 (confirmed): when the console print of an already-rendered
line raises, the exception is caught, the formatted traceback text is
forwarded to the adapter error-reporting path, nothing is printed, and
no exception propagates to the caller of `access`. -/
theorem C3_print_failure_contained (cfg : Config) (ccm : CMap) (atoms : AtomMap)
    (tb : String) (line : RenderedLine) (ccm2 : CMap)
    (hE : cfg.loggingEnabled = true)
    (hr : renderAccess ccm atoms = .ok (line, ccm2)) :
    access cfg ccm atoms (some tb) =
      ⟨[.atomsComputed, .errorReport tb], none, ccm2⟩ := by
  unfold access
  rw [hE, hr]
  rfl

/-- Witness for C3 at a concrete input. -/
theorem C3_print_failure_contained_witness :
    access ⟨true, false, false⟩ CODE_COLOR_MAPPING
        [("s", "200"), ("L", "0.5")] (some "boom") =
      ⟨[.atomsComputed, .errorReport "boom"], none, CODE_COLOR_MAPPING⟩ :=
  C3_print_failure_contained ⟨true, false, false⟩ CODE_COLOR_MAPPING
    [("s", "200"), ("L", "0.5")] "boom"
    ⟨⟨"- -?- (0.5 s) \"-\"", [(0, 1, "blue bold"), (2, 3, "cyan"), (4, 5, "cyan")]⟩,
      "200", "bold green"⟩
    CODE_COLOR_MAPPING (by decide) (by decide)

/-- Claim C4 (confirmed): the status badge of a rendered line carries
the style `bold` plus the color the status-class color map assigns to
the first character of the status code, and just `bold` with the empty
color when that character is not one of the five mapped digits. -/
theorem C4_badge_style (atoms : AtomMap) (v : Dec) (sv : String)
    (c : Char) (rest : List Char)
    (hL : parseFloat (safeGet atoms "L") = some v)
    (hs : lookupAtom atoms "s" = some sv) (hc : sv.toList = c :: rest) :
    ∃ line ccm2, renderAccess CODE_COLOR_MAPPING atoms = .ok (line, ccm2) ∧
      line.levelText = sv ∧
      line.levelStyle = "bold " ++ (lookupColor CODE_COLOR_MAPPING c).getD "" ∧
      (c ∉ (['1', '2', '3', '4', '5'] : List Char) → line.levelStyle = "bold ") := by
  refine ⟨_, _, renderAccess_eq CODE_COLOR_MAPPING atoms v sv c rest hL hs hc,
    rfl, rfl, ?_⟩
  intro hnot
  rw [lookupColor_CCM_none c hnot]
  rfl

/-- Witness for C4 at a concrete input: status `200`, colored green. -/
theorem C4_badge_style_witness :
    ∃ line ccm2, renderAccess CODE_COLOR_MAPPING [("s", "200"), ("L", "0.5")] =
        .ok (line, ccm2) ∧
      line.levelText = "200" ∧
      line.levelStyle = "bold " ++ (lookupColor CODE_COLOR_MAPPING '2').getD "" ∧
      ('2' ∉ (['1', '2', '3', '4', '5'] : List Char) → line.levelStyle = "bold ") :=
  C4_badge_style [("s", "200"), ("L", "0.5")] ⟨5, 1⟩ "200" '2' ['0', '0']
    (by decide) (by decide) (by decide)

/-- Claim C5 (confirmed): for a present latency atom that parses as a
float, colorization wraps the latency value in the red-bold markup
exactly when its numeric value is strictly greater than 1, and leaves
it unwrapped when it is at most 1. -/
theorem C5_latency_threshold (atoms : AtomMap) (l : String) (v : Dec)
    (hIn : lookupAtom atoms "L" = some l) (hp : parseFloat l = some v) :
    ∃ res, colorize_atoms atoms = some res ∧
      (1 < v.toRat → lookupAtom res "L" = some (markupWrap "red bold" [] l)) ∧
      (v.toRat ≤ 1 → lookupAtom res "L" = some l) := by
  have hsafe : safeGet atoms "L" = l := by simp [safeGet, hIn]
  have hL : parseFloat (safeGet atoms "L") = some v := by rw [hsafe, hp]
  refine ⟨_, colorize_atoms_eq atoms v hL, ?_, ?_⟩
  · intro hgt
    rw [colorizeResult_lookup_L_wrapped atoms v ((Dec.gtOne_iff v).mpr hgt), hsafe]
  · intro hle
    have hg : v.gtOne = false := by
      cases hgb : v.gtOne
      · rfl
      · exact absurd ((Dec.gtOne_iff v).mp hgb) (not_lt.mpr hle)
    rw [colorizeResult_lookup_L_plain atoms v hg, hIn]

/-- Witness for C5 at a concrete input: latency `2.5`, above the
threshold. -/
theorem C5_latency_threshold_witness :
    ∃ res, colorize_atoms [("L", "2.5")] = some res ∧
      (1 < (Dec.mk 25 1).toRat →
        lookupAtom res "L" = some (markupWrap "red bold" [] "2.5")) ∧
      ((Dec.mk 25 1).toRat ≤ 1 → lookupAtom res "L" = some "2.5") :=
  C5_latency_threshold [("L", "2.5")] "2.5" ⟨25, 1⟩ (by decide) (by decide)

/-- Claim C6 (confirmed): on the access-log or error-log channel, any
positive number of configurator calls leaves exactly one adapter-tagged
handler attached (starting from a channel with at most one such
handler, as gunicorn installs), and the non-adapter handlers attached
before are still attached, unmodified and in order, afterwards. -/
theorem C6_handler_idempotent (ch : Channel) (hs : List Handler) (ids : List Nat)
    (hch : ch = Channel.accessLog ∨ ch = Channel.errorLog)
    (hne : ids ≠ []) (hc : countGunicorn hs ≤ 1) :
    ∃ hs2, setHandlerIter ch hs ids = some hs2 ∧
      countGunicorn hs2 = 1 ∧ nonGunicorn hs2 = nonGunicorn hs :=
  setHandlerIter_inv ch hch ids hs hc hne

/-- Witness for C6 at a concrete input: two reconfigurations of the
access channel holding one foreign handler. -/
theorem C6_handler_idempotent_witness :
    ∃ hs2, setHandlerIter Channel.accessLog
        [⟨0, false, true, false⟩] [5, 6] = some hs2 ∧
      countGunicorn hs2 = 1 ∧
      nonGunicorn hs2 = nonGunicorn [⟨0, false, true, false⟩] :=
  C6_handler_idempotent Channel.accessLog [⟨0, false, true, false⟩] [5, 6]
    (Or.inl rfl) (by decide) (by decide)

/-- Claim C7 (confirmed): with no access-log destination, no log-config
and no syslog destination configured, the access call is a pure no-op:
no atoms are computed, nothing is printed, nothing is reported, no
exception is raised and the shared color map is untouched. -/
theorem C7_disabled_noop (ccm : CMap) (atoms : AtomMap) (printExc : Option String) :
    access ⟨false, false, false⟩ ccm atoms printExc = ⟨[], none, ccm⟩ :=
  access_disabled ccm atoms printExc ⟨false, false, false⟩ rfl

/-- Claim C8 (confirmed): with logging enabled and a well-formed status
atom, the access call propagates an exception exactly when the latency
value read through the safe accessor fails to parse as a float, and
that exception is the `float` conversion failure; print-time failures
are caught and never count. -/
theorem C8_latency_raises_iff (cfg : Config) (ccm : CMap) (atoms : AtomMap)
    (printExc : Option String) (sv : String)
    (hE : cfg.loggingEnabled = true)
    (hs : lookupAtom atoms "s" = some sv) (hne : sv ≠ "") :
    ((access cfg ccm atoms printExc).raised ≠ none ↔
      parseFloat (safeGet atoms "L") = none) ∧
    (parseFloat (safeGet atoms "L") = none →
      (access cfg ccm atoms printExc).raised = some PyError.valueError) := by
  obtain ⟨c, rest, hc⟩ := toList_ne_nil sv hne
  cases hp : parseFloat (safeGet atoms "L") with
  | none =>
      rw [access_parse_failure cfg ccm atoms printExc hE hp]
      exact ⟨by simp, fun _ => rfl⟩
  | some v =>
      have hnone : (access cfg ccm atoms printExc).raised = none := by
        cases printExc with
        | none => rw [access_ok_none cfg ccm atoms v sv c rest hE hp hs hc]
        | some tb => rw [access_ok_raise cfg ccm atoms tb v sv c rest hE hp hs hc]
      rw [hnone]
      constructor
      · simp
      · intro hcontra
        exact absurd hcontra (by simp)

/-- Witness for C8 at a concrete input: an unparseable latency `abc`
raises the conversion failure. -/
theorem C8_latency_raises_iff_witness :
    ((access ⟨true, false, false⟩ CODE_COLOR_MAPPING
        [("s", "502"), ("L", "abc")] none).raised ≠ none ↔
      parseFloat (safeGet [("s", "502"), ("L", "abc")] "L") = none) ∧
    (parseFloat (safeGet [("s", "502"), ("L", "abc")] "L") = none →
      (access ⟨true, false, false⟩ CODE_COLOR_MAPPING
        [("s", "502"), ("L", "abc")] none).raised = some PyError.valueError) :=
  C8_latency_raises_iff ⟨true, false, false⟩ CODE_COLOR_MAPPING
    [("s", "502"), ("L", "abc")] none "502" (by decide) (by decide) (by decide)

/-- Claim C9 (confirmed): on the example atoms the rendered line has
the green badge (style `bold green` on text `200`), an unstyled latency
field, message body `GET /health? (0.003 s) "GET /health HTTP/1.1"`,
the method span styled `blue bold` (bold plus blue), and the path and
query spans styled cyan; the spans listed are exhaustive, so no span
covers the latency text, and the shared color map is unchanged. -/
theorem C9_health_example :
    renderAccess CODE_COLOR_MAPPING [("m", "GET"), ("U", "/health"), ("q", ""),
        ("L", "0.003"), ("s", "200"), ("f", "GET /health HTTP/1.1")] =
      .ok (⟨⟨"GET /health? (0.003 s) \"GET /health HTTP/1.1\"",
        [(0, 3, "blue bold"), (4, 11, "cyan"), (12, 12, "cyan")]⟩, "200", "bold green"⟩,
        CODE_COLOR_MAPPING) := by decide

/-- Claim C10 (confirmed): at the object level, `colorize_atoms`
mutates the dict its argument references in place and returns that very
reference; afterwards the entries for `U`, `q` and `m` hold
markup-wrapped values, the entry for `L` is rewritten exactly when its
float value exceeds 1, every other entry of the mapping holds its
original value, and every other object in the store is untouched. -/
theorem C10_colorize_in_place (store : Store) (r : Nat) (atoms : AtomMap) (v : Dec)
    (hr : store[r]? = some atoms)
    (hL : parseFloat (safeGet atoms "L") = some v) :
    ∃ res, colorize_atoms atoms = some res ∧
      colorize_atoms_ref store r = some (store.set r res, r) ∧
      (∀ r2, r2 ≠ r → (store.set r res)[r2]? = store[r2]?) ∧
      lookupAtom res "U" = some (markupWrap "cyan" [] (safeGet atoms "U")) ∧
      lookupAtom res "q" = some (markupWrap "cyan" [] (safeGet atoms "q")) ∧
      lookupAtom res "m" = some (markupWrap "blue" ["bold"] (safeGet atoms "m")) ∧
      (1 < v.toRat →
        lookupAtom res "L" = some (markupWrap "red bold" [] (safeGet atoms "L"))) ∧
      (v.toRat ≤ 1 → lookupAtom res "L" = lookupAtom atoms "L") ∧
      (∀ key, key ∉ (["U", "q", "m", "L"] : List String) →
        lookupAtom res key = lookupAtom atoms key) := by
  refine ⟨colorizeResult atoms v, colorize_atoms_eq atoms v hL,
    colorize_atoms_ref_eq store r atoms v hr hL, ?_,
    colorizeResult_lookup_U atoms v, colorizeResult_lookup_q atoms v,
    colorizeResult_lookup_m atoms v, ?_, ?_, ?_⟩
  · intro r2 hr2
    exact List.getElem?_set_ne (Ne.symm hr2)
  · intro hgt
    exact colorizeResult_lookup_L_wrapped atoms v ((Dec.gtOne_iff v).mpr hgt)
  · intro hle
    refine colorizeResult_lookup_L_plain atoms v ?_
    cases hgb : v.gtOne
    · rfl
    · exact absurd ((Dec.gtOne_iff v).mp hgb) (not_lt.mpr hle)
  · intro key hk
    simp only [List.mem_cons, List.not_mem_nil, or_false, not_or] at hk
    obtain ⟨h1, h2, h3, h4⟩ := hk
    exact colorizeResult_lookup_other atoms v key h1 h2 h3 h4

/-- Witness for C10 at a concrete input: a two-object store, the
colorized dict at reference 0. -/
theorem C10_colorize_in_place_witness :
    ∃ res, colorize_atoms [("L", "2.5")] = some res ∧
      colorize_atoms_ref [[("L", "2.5")], [("a", "b")]] 0 =
        some ([[("L", "2.5")], [("a", "b")]].set 0 res, 0) ∧
      (∀ r2, r2 ≠ 0 → ([[("L", "2.5")], [("a", "b")]].set 0 res)[r2]? =
        [[("L", "2.5")], [("a", "b")]][r2]?) ∧
      lookupAtom res "U" = some (markupWrap "cyan" [] (safeGet [("L", "2.5")] "U")) ∧
      lookupAtom res "q" = some (markupWrap "cyan" [] (safeGet [("L", "2.5")] "q")) ∧
      lookupAtom res "m" = some (markupWrap "blue" ["bold"] (safeGet [("L", "2.5")] "m")) ∧
      (1 < (Dec.mk 25 1).toRat →
        lookupAtom res "L" = some (markupWrap "red bold" [] (safeGet [("L", "2.5")] "L"))) ∧
      ((Dec.mk 25 1).toRat ≤ 1 → lookupAtom res "L" = lookupAtom [("L", "2.5")] "L") ∧
      (∀ key, key ∉ (["U", "q", "m", "L"] : List String) →
        lookupAtom res key = lookupAtom [("L", "2.5")] key) :=
  C10_colorize_in_place [[("L", "2.5")], [("a", "b")]] 0 [("L", "2.5")] ⟨25, 1⟩
    (by decide) (by decide)

end GunicornColor
